import Mathlib

/-!
Verification of the error-value core of protoc-gen-go-zero-errors.

The development shallowly embeds the functions of src/errors/errors.go.
Go strings are modelled as lists of bytes (each a Nat below 256), Go maps
with string keys as association lists, and the ambient runtime context that
identifier generation reads (caller frame, clock, goroutine id, process id,
random bytes) as explicit record parameters, so that every definition is an
executable Lean function.
-/

set_option autoImplicit false

namespace ZeroErr

/-- ASCII bytes of the reserved metadata key error_id. -/
def strErrorId : List Nat := [101, 114, 114, 111, 114, 95, 105, 100]

/-- ASCII bytes of the literal unknown used when caller context is missing. -/
def strUnknown : List Nat := [117, 110, 107, 110, 111, 119, 110]

/-- ASCII bytes of the fallback marker literal. -/
def strFallback : List Nat := [102, 97, 108, 108, 98, 97, 99, 107]

/-- Byte of the standard base64 alphabet at index n (n below 64);
61 is the padding byte. Models encoding/base64 StdEncoding. -/
def b64Byte (n : Nat) : Nat :=
  if n < 26 then 65 + n
  else if n < 52 then 97 + (n - 26)
  else if n < 62 then 48 + (n - 52)
  else if n = 62 then 43
  else 47

/-- Index of a byte in the standard base64 alphabet, none for a byte
outside the alphabet. -/
def b64Val (b : Nat) : Option Nat :=
  if 65 ≤ b ∧ b ≤ 90 then some (b - 65)
  else if 97 ≤ b ∧ b ≤ 122 then some (b - 97 + 26)
  else if 48 ≤ b ∧ b ≤ 57 then some (b - 48 + 52)
  else if b = 43 then some 62
  else if b = 47 then some 63
  else none

/-- Standard base64 encoding of a byte list
(base64.StdEncoding.EncodeToString). -/
def base64Encode : List Nat → List Nat
  | [] => []
  | [b0] => [b64Byte (b0 / 4), b64Byte (b0 % 4 * 16), 61, 61]
  | [b0, b1] =>
      [b64Byte (b0 / 4), b64Byte (b0 % 4 * 16 + b1 / 16), b64Byte (b1 % 16 * 4), 61]
  | b0 :: b1 :: b2 :: rest =>
      b64Byte (b0 / 4) :: b64Byte (b0 % 4 * 16 + b1 / 16) ::
      b64Byte (b1 % 16 * 4 + b2 / 64) :: b64Byte (b2 % 64) :: base64Encode rest

/-- Standard base64 decoding (base64.StdEncoding.DecodeString): quads of
alphabet bytes, with one or two padding bytes allowed only in the final quad;
trailing bits are not checked (the non-strict decoder). The decoder's
skipping of carriage-return and newline bytes is not modelled. -/
def base64Decode : List Nat → Option (List Nat)
  | [] => some []
  | c0 :: c1 :: c2 :: c3 :: rest =>
      if rest = [] ∧ c2 = 61 ∧ c3 = 61 then
        match b64Val c0, b64Val c1 with
        | some v0, some v1 => some [v0 * 4 + v1 / 16]
        | _, _ => none
      else if rest = [] ∧ c3 = 61 then
        match b64Val c0, b64Val c1, b64Val c2 with
        | some v0, some v1, some v2 =>
            some [v0 * 4 + v1 / 16, v1 % 16 * 16 + v2 / 4]
        | _, _, _ => none
      else
        match b64Val c0, b64Val c1, b64Val c2, b64Val c3, base64Decode rest with
        | some v0, some v1, some v2, some v3, some bs =>
            some ((v0 * 4 + v1 / 16) :: (v1 % 16 * 16 + v2 / 4) :: (v2 % 4 * 64 + v3) :: bs)
        | _, _, _, _, _ => none
  | _ => none

theorem b64Val_b64Byte : ∀ n < 64, b64Val (b64Byte n) = some n := by decide

theorem b64Byte_ne_61 : ∀ n < 64, b64Byte n ≠ 61 := by decide

theorem base64Encode_ne_nil (bs : List Nat) (h : bs ≠ []) : base64Encode bs ≠ [] := by
  match bs with
  | [] => exact absurd rfl h
  | [b0] => simp [base64Encode]
  | [b0, b1] => simp [base64Encode]
  | b0 :: b1 :: b2 :: rest => simp [base64Encode]

theorem base64_decode_encode :
    ∀ bs : List Nat, (∀ b ∈ bs, b < 256) → base64Decode (base64Encode bs) = some bs := by
  intro bs
  induction bs using base64Encode.induct with
  | case1 =>
    intro _
    simp [base64Encode, base64Decode]
  | case2 b0 =>
    intro h
    have hb0 : b0 < 256 := h b0 (by simp)
    have e0 := b64Val_b64Byte (b0 / 4) (by omega)
    have e1 := b64Val_b64Byte (b0 % 4 * 16) (by omega)
    simp only [base64Encode, base64Decode]
    rw [if_pos (by simp), e0, e1]
    simp
    omega
  | case3 b0 b1 =>
    intro h
    have hb0 : b0 < 256 := h b0 (by simp)
    have hb1 : b1 < 256 := h b1 (by simp)
    have e0 := b64Val_b64Byte (b0 / 4) (by omega)
    have e1 := b64Val_b64Byte (b0 % 4 * 16 + b1 / 16) (by omega)
    have e2 := b64Val_b64Byte (b1 % 16 * 4) (by omega)
    have hne : b64Byte (b1 % 16 * 4) ≠ 61 := b64Byte_ne_61 _ (by omega)
    simp only [base64Encode, base64Decode]
    rw [if_neg (by simp [hne]), if_pos (by simp), e0, e1, e2]
    simp
    omega
  | case4 b0 b1 b2 rest ih =>
    intro h
    have hb0 : b0 < 256 := h b0 (by simp)
    have hb1 : b1 < 256 := h b1 (by simp)
    have hb2 : b2 < 256 := h b2 (by simp)
    have e0 := b64Val_b64Byte (b0 / 4) (by omega)
    have e1 := b64Val_b64Byte (b0 % 4 * 16 + b1 / 16) (by omega)
    have e2 := b64Val_b64Byte (b1 % 16 * 4 + b2 / 64) (by omega)
    have e3 := b64Val_b64Byte (b2 % 64) (by omega)
    have hne2 : b64Byte (b1 % 16 * 4 + b2 / 64) ≠ 61 := b64Byte_ne_61 _ (by omega)
    have hne3 : b64Byte (b2 % 64) ≠ 61 := b64Byte_ne_61 _ (by omega)
    have ihe : base64Decode (base64Encode rest) = some rest :=
      ih fun b hb => h b (by simp [hb])
    simp only [base64Encode, base64Decode]
    rw [if_neg (by simp [hne2]), if_neg (by simp [hne3]), e0, e1, e2, e3, ihe]
    simp
    omega

/-- Value of a little-endian decimal digit list. -/
def ofDigits10 : List Nat → Nat
  | [] => 0
  | d :: ds => d + 10 * ofDigits10 ds

/-- Little-endian decimal digits of n, with explicit fuel so the function is
structurally recursive; fuel at least n gives all digits. -/
def natDigitsRev : Nat → Nat → List Nat
  | 0, _ => []
  | fuel + 1, n => if n = 0 then [] else n % 10 :: natDigitsRev fuel (n / 10)

/-- Decimal ASCII bytes of a natural number (strconv.Itoa and
strconv.FormatInt or FormatUint on a non-negative value). -/
def natToBytes (n : Nat) : List Nat :=
  if n = 0 then [48] else (natDigitsRev n n).reverse.map (fun d => d + 48)

theorem ofDigits10_natDigitsRev :
    ∀ fuel n, n ≤ fuel → ofDigits10 (natDigitsRev fuel n) = n := by
  intro fuel
  induction fuel with
  | zero => intro n h; interval_cases n; simp [natDigitsRev, ofDigits10]
  | succ f ih =>
    intro n h
    by_cases h0 : n = 0
    · simp [natDigitsRev, h0, ofDigits10]
    · have hdiv : n / 10 ≤ f := by omega
      simp only [natDigitsRev, h0, if_neg, ofDigits10, ih (n / 10) hdiv]
      omega

theorem natDigitsRev_mem :
    ∀ fuel n d, d ∈ natDigitsRev fuel n → d < 10 := by
  intro fuel
  induction fuel with
  | zero => intro n d hd; simp [natDigitsRev] at hd
  | succ f ih =>
    intro n d hd
    by_cases h0 : n = 0
    · simp [natDigitsRev, h0] at hd
    · rw [natDigitsRev, if_neg h0] at hd
      rcases List.mem_cons.mp hd with h | h
      · omega
      · exact ih (n / 10) d h

theorem natDigitsRev_ne_nil (fuel n : Nat) (h1 : n ≠ 0) (h2 : n ≤ fuel) :
    natDigitsRev fuel n ≠ [] := by
  cases fuel with
  | zero => omega
  | succ f => simp [natDigitsRev, h1]

theorem natToBytes_mem (n : Nat) : ∀ b ∈ natToBytes n, 48 ≤ b ∧ b ≤ 57 := by
  intro b hb
  by_cases h0 : n = 0
  · simp [natToBytes, h0] at hb
    omega
  · rw [natToBytes, if_neg h0] at hb
    rw [List.mem_map] at hb
    obtain ⟨d, hd, rfl⟩ := hb
    have := natDigitsRev_mem n n d (List.mem_reverse.mp hd)
    omega

theorem natToBytes_ne_nil (n : Nat) : natToBytes n ≠ [] := by
  by_cases h0 : n = 0
  · simp [natToBytes, h0]
  · simp [natToBytes, h0, natDigitsRev_ne_nil n n h0 le_rfl]

/-- Decimal value of a non-empty all-digit ASCII byte list, none otherwise. -/
def digitsVal (xs : List Nat) : Option Nat :=
  if xs ≠ [] ∧ ∀ b ∈ xs, 48 ≤ b ∧ b ≤ 57 then
    some (ofDigits10 ((xs.map (fun b => b - 48)).reverse))
  else none

/-- Leading sign handling of strconv.ParseInt: an optional plus or minus
byte, which must be followed by at least one byte. -/
def parseSignDigits (xs : List Nat) : Option (Bool × List Nat) :=
  match xs with
  | [] => none
  | b :: rest =>
      if b = 43 then (if rest = [] then none else some (false, rest))
      else if b = 45 then (if rest = [] then none else some (true, rest))
      else some (false, xs)

/-- strconv.ParseInt with bit size 64 (also strconv.Atoi on a 64-bit
platform): sign, decimal digits, and the int64 range check. -/
def parseInt64 (xs : List Nat) : Option Int :=
  match parseSignDigits xs with
  | none => none
  | some (neg, ds) =>
      match digitsVal ds with
      | none => none
      | some v =>
          if neg then (if v ≤ 2 ^ 63 then some (-(v : Int)) else none)
          else (if v ≤ 2 ^ 63 - 1 then some ((v : Int)) else none)

/-- strconv.ParseUint with bit size 64: decimal digits, no sign, and the
uint64 range check. -/
def parseUint64 (xs : List Nat) : Option Nat :=
  match digitsVal xs with
  | none => none
  | some v => if v ≤ 2 ^ 64 - 1 then some v else none

theorem digitsVal_natToBytes (n : Nat) : digitsVal (natToBytes n) = some n := by
  by_cases h0 : n = 0
  · subst h0
    simp [natToBytes, digitsVal, ofDigits10]
  · have hmap : ((natToBytes n).map (fun b => b - 48)).reverse = natDigitsRev n n := by
      rw [natToBytes, if_neg h0, List.map_map]
      have hid : ((fun b => b - 48) ∘ fun d => d + 48) = id := by
        funext d
        simp
      rw [hid, List.map_id, List.reverse_reverse]
    rw [digitsVal, if_pos ⟨natToBytes_ne_nil n, natToBytes_mem n⟩, hmap,
      ofDigits10_natDigitsRev n n le_rfl]

theorem parseSignDigits_natToBytes (n : Nat) :
    parseSignDigits (natToBytes n) = some (false, natToBytes n) := by
  have hne := natToBytes_ne_nil n
  match hxs : natToBytes n with
  | [] => exact absurd hxs hne
  | b :: rest =>
    have hb : 48 ≤ b ∧ b ≤ 57 := natToBytes_mem n b (by rw [hxs]; simp)
    simp only [parseSignDigits]
    rw [if_neg (by omega), if_neg (by omega)]

theorem parseInt64_natToBytes (n : Nat) (h : n ≤ 2 ^ 63 - 1) :
    parseInt64 (natToBytes n) = some (n : Int) := by
  simp [parseInt64, parseSignDigits_natToBytes, digitsVal_natToBytes, h]
  omega

theorem parseInt64_natToBytes_nonneg (n : Nat) :
    0 ≤ ((parseInt64 (natToBytes n)).getD 0) := by
  simp only [parseInt64, parseSignDigits_natToBytes, digitsVal_natToBytes,
    Bool.false_eq_true, if_false]
  split
  · simp
  · simp

/-- strings.Split on a one-byte separator. -/
def splitOn (sep : Nat) : List Nat → List (List Nat)
  | [] => [[]]
  | b :: rest =>
      if b = sep then [] :: splitOn sep rest
      else (b :: (splitOn sep rest).headD []) :: (splitOn sep rest).tail

theorem splitOn_ne_nil (sep : Nat) (xs : List Nat) : splitOn sep xs ≠ [] := by
  match xs with
  | [] => simp [splitOn]
  | b :: rest =>
    by_cases h : b = sep
    · simp [splitOn, h]
    · simp [splitOn, h]

theorem splitOn_no_sep (sep : Nat) (xs : List Nat) (h : sep ∉ xs) :
    splitOn sep xs = [xs] := by
  induction xs with
  | nil => simp [splitOn]
  | cons b rest ih =>
    have hb : b ≠ sep := by
      intro hcontra
      exact h (by simp [hcontra])
    have hrest : sep ∉ rest := fun hc => h (by simp [hc])
    simp [splitOn, hb, ih hrest]

theorem splitOn_append (sep : Nat) (xs ys : List Nat) (h : sep ∉ xs) :
    splitOn sep (xs ++ sep :: ys) = xs :: splitOn sep ys := by
  induction xs with
  | nil => simp [splitOn]
  | cons b rest ih =>
    have hb : b ≠ sep := by
      intro hcontra
      exact h (by simp [hcontra])
    have hrest : sep ∉ rest := fun hc => h (by simp [hc])
    simp [splitOn, hb, ih hrest]

/-- strings.LastIndex on a one-byte needle, rendered as the pair of slices
before and after the last occurrence; none when the byte does not occur. -/
def splitAtLastByte (t : Nat) : List Nat → Option (List Nat × List Nat)
  | [] => none
  | b :: rest =>
      match splitAtLastByte t rest with
      | some (l, r) => some (b :: l, r)
      | none => if b = t then some ([], rest) else none

theorem splitAtLastByte_not_mem (t : Nat) (xs : List Nat) (h : t ∉ xs) :
    splitAtLastByte t xs = none := by
  induction xs with
  | nil => simp [splitAtLastByte]
  | cons b rest ih =>
    have hb : b ≠ t := by
      intro hcontra
      exact h (by simp [hcontra])
    have hrest : t ∉ rest := fun hc => h (by simp [hc])
    simp [splitAtLastByte, ih hrest, hb]

theorem splitAtLastByte_append (t : Nat) (xs ys : List Nat) (h : t ∉ ys) :
    splitAtLastByte t (xs ++ t :: ys) = some (xs, ys) := by
  induction xs with
  | nil => simp [splitAtLastByte, splitAtLastByte_not_mem t ys h]
  | cons b rest ih => simp [splitAtLastByte, ih]

/-- Core of filepath.Base once trailing path separators are stripped: the
slice past the last slash, with the all-slash and empty cases mapped to a
single slash byte. -/
def baseAfterSlash (q : List Nat) : List Nat :=
  match splitAtLastByte 47 q with
  | some (_, after) => if after = [] then [47] else after
  | none => if q = [] then [47] else q

/-- filepath.Base on a unix path: a dot for the empty path, otherwise strip
trailing slashes and keep everything past the last remaining slash. -/
def filepathBase (path : List Nat) : List Nat :=
  if path = [] then [46]
  else baseAfterSlash ((path.reverse.dropWhile (fun b => b = 47)).reverse)

theorem baseAfterSlash_ne_nil (q : List Nat) : baseAfterSlash q ≠ [] := by
  rw [baseAfterSlash]
  split
  · split
    · simp
    · assumption
  · split
    · simp
    · assumption

theorem filepathBase_ne_nil (path : List Nat) : filepathBase path ≠ [] := by
  rw [filepathBase]
  split
  · simp
  · exact baseAfterSlash_ne_nil _

/-- Function-name trimming of generateErrorIDInternal: keep the part of the
runtime function name past the last dot, except that a name whose last dot
is its final byte, or that has no dot, is kept whole. -/
def computeFuncName (fullName : List Nat) : List Nat :=
  match splitAtLastByte 46 fullName with
  | some (_, r) => if r = [] then fullName else r
  | none => fullName

/-- Runtime context read by generateErrorIDInternal: the runtime.Caller
result (ok flag, full file path, line), the runtime.FuncForPC name (none
models a nil function record), the nanosecond clock, the goroutine id, the
process id, and the hex random suffix bytes. The clock and line are
non-negative in Go, so they are modelled as Nat. -/
structure GenContext where
  callerOk : Bool
  file : List Nat
  line : Nat
  fnName : Option (List Nat)
  timestamp : Nat
  goroutineID : Nat
  pid : Nat
  randomSuffix : List Nat

/-- Function name chosen by generateErrorIDInternal. -/
def genFuncName (c : GenContext) : List Nat :=
  if c.callerOk then
    match c.fnName with
    | some full => computeFuncName full
    | none => strUnknown
  else strUnknown

/-- File name chosen by generateErrorIDInternal. -/
def genFileName (c : GenContext) : List Nat :=
  if c.callerOk then filepathBase c.file else strUnknown

/-- Line number chosen by generateErrorIDInternal. -/
def genLine (c : GenContext) : Nat :=
  if c.callerOk then c.line else 0

/-- The colon-delimited record built by generateErrorIDInternal before
base64 encoding: func at-sign file, then line, timestamp, goroutine id,
process id and random suffix, colon separated. -/
def genPayload (c : GenContext) : List Nat :=
  genFuncName c ++ [64] ++ genFileName c ++ [58] ++ natToBytes (genLine c) ++ [58] ++
  natToBytes c.timestamp ++ [58] ++ natToBytes c.goroutineID ++ [58] ++
  natToBytes c.pid ++ [58] ++ c.randomSuffix

/-- generateErrorIDInternal: the base64 encoding of the debug record. -/
def generateErrorIDInternal (c : GenContext) : List Nat :=
  base64Encode (genPayload c)

/-- The record built by generateFallbackErrorID: the fallback marker, then
timestamp, process id and random number, colon separated. The random number
is assembled from four random bytes, hence non-negative and modelled Nat. -/
def fallbackPayload (ts pid rnd : Nat) : List Nat :=
  strFallback ++ [58] ++ natToBytes ts ++ [58] ++ natToBytes pid ++ [58] ++ natToBytes rnd

/-- generateFallbackErrorID: the base64 encoding of the fallback record. -/
def generateFallbackErrorID (ts pid rnd : Nat) : List Nat :=
  base64Encode (fallbackPayload ts pid rnd)

/-- One invocation's worth of generation context: the context seen by
tryGenerateErrorID (none models a recovered panic, making it return the
empty string) and the clock, pid and random number the fallback path would
read. -/
structure GenInput where
  tryCtx : Option GenContext
  fbTimestamp : Nat
  fbPid : Nat
  fbRandom : Nat

/-- tryGenerateErrorID: generateErrorIDInternal's result, or the empty
string when a panic was recovered. -/
def tryGenerateErrorID (g : GenInput) : List Nat :=
  match g.tryCtx with
  | some c => generateErrorIDInternal c
  | none => []

/-- generateErrorID: the internal result when non-empty, else the fallback
identifier. -/
def generateErrorID (g : GenInput) : List Nat :=
  if tryGenerateErrorID g = [] then
    generateFallbackErrorID g.fbTimestamp g.fbPid g.fbRandom
  else tryGenerateErrorID g

theorem fallbackPayload_ne_nil (ts pid rnd : Nat) : fallbackPayload ts pid rnd ≠ [] := by
  simp [fallbackPayload, strFallback]

theorem generateFallbackErrorID_ne_nil (ts pid rnd : Nat) :
    generateFallbackErrorID ts pid rnd ≠ [] :=
  base64Encode_ne_nil _ (fallbackPayload_ne_nil ts pid rnd)

theorem generateErrorID_ne_nil (g : GenInput) : generateErrorID g ≠ [] := by
  rw [generateErrorID]
  split
  · exact generateFallbackErrorID_ne_nil _ _ _
  · assumption

/-- Decoded form of an error id (struct ErrorIDInfo). The presentation-only
TimeFormatted field, a fixed rendering of the timestamp, is not modelled. -/
structure ErrorIDInfo where
  function : List Nat
  file : List Nat
  line : Int
  timestamp : Int
  goroutineID : Nat
  processID : Int
  randomSuffix : List Nat
  raw : List Nat
deriving DecidableEq

/-- The three outcomes of DecodeErrorID: a base64 decoding error, a
format error for a record with fewer than six colon fields (Go returns the
partially filled info alongside the error), or success. -/
inductive DecodeResult where
  | base64Error : DecodeResult
  | formatError : ErrorIDInfo → DecodeResult
  | ok : ErrorIDInfo → DecodeResult
deriving DecidableEq

/-- True exactly on the successful outcome of DecodeErrorID. -/
def DecodeResult.isOk : DecodeResult → Bool
  | .ok _ => true
  | _ => false

/-- The info record Go returns alongside the malformed-format error: only
the raw decoded bytes are filled in. -/
def emptyInfo (raw : List Nat) : ErrorIDInfo :=
  { function := [], file := [], line := 0, timestamp := 0,
    goroutineID := 0, processID := 0, randomSuffix := [], raw := raw }

/-- The fields DecodeErrorID extracts from a raw record with at least six
colon fields: the first field is split on its last at-sign into function and
file (function defaulting to the unknown literal when there is no at-sign),
the integer fields are parsed tolerantly (an unparsable integer stays zero),
and the sixth field is the random suffix. -/
def decodedInfo (raw : List Nat) : ErrorIDInfo :=
  { function :=
      match splitAtLastByte 64 ((splitOn 58 raw).getD 0 []) with
      | some (l, _) => l
      | none => strUnknown
    file :=
      match splitAtLastByte 64 ((splitOn 58 raw).getD 0 []) with
      | some (_, r) => r
      | none => (splitOn 58 raw).getD 0 []
    line := (parseInt64 ((splitOn 58 raw).getD 1 [])).getD 0
    timestamp := (parseInt64 ((splitOn 58 raw).getD 2 [])).getD 0
    goroutineID := (parseUint64 ((splitOn 58 raw).getD 3 [])).getD 0
    processID := (parseInt64 ((splitOn 58 raw).getD 4 [])).getD 0
    randomSuffix := (splitOn 58 raw).getD 5 []
    raw := raw }

/-- DecodeErrorID: base64-decode, split on colons, require at least six
fields, and extract the record fields. -/
def decodeErrorID (encodedID : List Nat) : DecodeResult :=
  match base64Decode encodedID with
  | none => .base64Error
  | some raw =>
      if (splitOn 58 raw).length < 6 then .formatError (emptyInfo raw)
      else .ok (decodedInfo raw)

/-- Numeric values of the gRPC status codes (google.golang.org/grpc/codes). -/
def codesOK : Nat := 0

/-- codes.Canceled. -/
def codesCanceled : Nat := 1

/-- codes.Unknown. -/
def codesUnknown : Nat := 2

/-- codes.InvalidArgument. -/
def codesInvalidArgument : Nat := 3

/-- codes.DeadlineExceeded. -/
def codesDeadlineExceeded : Nat := 4

/-- codes.NotFound. -/
def codesNotFound : Nat := 5

/-- codes.AlreadyExists. -/
def codesAlreadyExists : Nat := 6

/-- codes.PermissionDenied. -/
def codesPermissionDenied : Nat := 7

/-- codes.ResourceExhausted. -/
def codesResourceExhausted : Nat := 8

/-- codes.FailedPrecondition. -/
def codesFailedPrecondition : Nat := 9

/-- codes.Aborted. -/
def codesAborted : Nat := 10

/-- codes.OutOfRange. -/
def codesOutOfRange : Nat := 11

/-- codes.Unimplemented. -/
def codesUnimplemented : Nat := 12

/-- codes.Internal. -/
def codesInternal : Nat := 13

/-- codes.Unavailable. -/
def codesUnavailable : Nat := 14

/-- codes.DataLoss. -/
def codesDataLoss : Nat := 15

/-- codes.Unauthenticated. -/
def codesUnauthenticated : Nat := 16

/-- ToGRPCCode: the switch from HTTP status codes (Go int) to gRPC codes,
defaulting to codes.Unknown. -/
def ToGRPCCode (code : Int) : Nat :=
  if code = 200 then codesOK
  else if code = 400 then codesInvalidArgument
  else if code = 401 then codesUnauthenticated
  else if code = 403 then codesPermissionDenied
  else if code = 404 then codesNotFound
  else if code = 409 then codesAborted
  else if code = 429 then codesResourceExhausted
  else if code = 500 then codesInternal
  else if code = 501 then codesUnimplemented
  else if code = 503 then codesUnavailable
  else if code = 504 then codesDeadlineExceeded
  else codesUnknown

/-- ToHTTPCode: the switch from gRPC codes (a uint32 in Go, hence Nat) to
HTTP status codes, defaulting to 500. -/
def ToHTTPCode (code : Nat) : Int :=
  if code = codesOK then 200
  else if code = codesCanceled then 499
  else if code = codesUnknown then 500
  else if code = codesInvalidArgument then 400
  else if code = codesDeadlineExceeded then 504
  else if code = codesNotFound then 404
  else if code = codesAlreadyExists then 409
  else if code = codesPermissionDenied then 403
  else if code = codesUnauthenticated then 401
  else if code = codesResourceExhausted then 429
  else if code = codesFailedPrecondition then 400
  else if code = codesAborted then 409
  else if code = codesOutOfRange then 400
  else if code = codesUnimplemented then 501
  else if code = codesInternal then 500
  else if code = codesUnavailable then 503
  else if code = codesDataLoss then 500
  else 500

/-- A Go map with string keys and values, as an association list without
duplicate keys. -/
abbrev Metadata := List (List Nat × List Nat)

/-- Map lookup; none models the missing-key case (whose value reads as the
empty string in Go). -/
def mapGet (k : List Nat) : Metadata → Option (List Nat)
  | [] => none
  | (k1, v1) :: rest => if k1 = k then some v1 else mapGet k rest

/-- Map assignment: replace the existing entry for the key or append one. -/
def mapSet (k v : List Nat) : Metadata → Metadata
  | [] => [(k, v)]
  | (k1, v1) :: rest => if k1 = k then (k, v) :: rest else (k1, v1) :: mapSet k v rest

/-- Map key deletion (the delete builtin). -/
def mapDelete (k : List Nat) (m : Metadata) : Metadata :=
  m.filter (fun p => p.1 != k)

/-- The copy loop over a map: make an empty map and assign every entry. -/
def mapCopy (m : Metadata) : Metadata :=
  m.foldl (fun acc p => mapSet p.1 p.2 acc) []

/-- The Error struct with its embedded Status: code (int32), reason,
message, metadata, trace id, and the wrapped cause. Causes carry no
structure relevant to the verified claims and are modelled as opaque
references. -/
structure Error where
  code : Int
  reason : List Nat
  message : List Nat
  metadata : Metadata
  id : List Nat
  cause : Option Nat
deriving DecidableEq

/-- Error.GetID: return the stored id, or generate and store one when the
id is empty. The mutation of the receiver is rendered as returning the
updated error alongside the id. -/
def Error.GetID (e : Error) (g : GenInput) : List Nat × Error :=
  if e.id = [] then
    (generateErrorID g, { e with id := generateErrorID g })
  else (e.id, e)

/-- The non-nil body of Clone: copy every field, deep-copying metadata. -/
def cloneErr (err : Error) : Error :=
  { code := err.code, reason := err.reason, message := err.message,
    metadata := mapCopy err.metadata, id := err.id, cause := err.cause }

/-- Clone: nil in, nil out; otherwise a field-for-field copy with an
independent metadata map. -/
def Clone : Option Error → Option Error
  | none => none
  | some err => some (cloneErr err)

/-- Error.WithMetadata: clone, then replace the metadata wholesale. -/
def Error.WithMetadata (e : Error) (md : Metadata) : Error :=
  { cloneErr e with metadata := md }

/-- The structured detail payload attached to a remote status
(the errorspb.Status message: code, reason, message, metadata). -/
structure DetailStatus where
  code : Int
  reason : List Nat
  message : List Nat
  metadata : Metadata
deriving DecidableEq

/-- A gRPC status: code, message and attached detail payloads. Details are
carried directly as detail-status records; the anypb.Any wrapping branch of
FromError unmarshals to the same record and is not modelled separately. -/
structure RemoteStatus where
  code : Nat
  message : List Nat
  details : List DetailStatus
deriving DecidableEq

/-- Error.GRPCStatus: materialize the id if empty, copy the metadata and
add the reserved error id key, and build the remote status from the
translated code, the message, and one structured detail. Returns the
updated receiver alongside the status. WithDetails refuses a status whose
code is codes.OK and returns a nil status there; the source discards that
error with a blank identifier, so a code translating to OK yields none. -/
def Error.GRPCStatus (e : Error) (g : GenInput) : Error × Option RemoteStatus :=
  let e2 := if e.id = [] then { e with id := generateErrorID g } else e
  (e2,
    if ToGRPCCode e2.code = codesOK then none
    else
      some { code := ToGRPCCode e2.code, message := e2.message,
             details := [{ code := e2.code, reason := e2.reason, message := e2.message,
                           metadata := mapSet strErrorId e2.id (mapCopy e2.metadata) }] })

/-- The shapes an incoming Go error can have for FromError: one of this
package's errors (found by errors.As, also through wrapping), an error
carrying a gRPC status, or a fully generic error exposing only its display
text. -/
inductive GoError where
  | native : Error → GoError
  | remote : RemoteStatus → GoError
  | generic : List Nat → GoError

/-- The Err method on a possibly nil status, as fed back into FromError: a
nil status yields a nil error, a status yields the status-carrying error.
(Go's Err also returns nil for a non-nil status whose code is OK, but
GRPCStatus never produces such a status, so that case does not arise.) -/
def statusErr (st : Option RemoteStatus) : Option GoError :=
  st.map GoError.remote

/-- FromError: nil in, nil out; a native error is returned with its id
materialized; a status-carrying error is rebuilt from its first structured
detail when present (extracting and removing the reserved error id key when
it is set non-empty), else from the translated code and message; a generic
error becomes code 500 with empty reason and a fresh id. -/
def FromError (err : Option GoError) (g : GenInput) : Option Error :=
  match err with
  | none => none
  | some (.native se) =>
      some (if se.id = [] then { se with id := generateErrorID g } else se)
  | some (.remote gs) =>
      match gs.details with
      | [] =>
          some { code := ToHTTPCode gs.code, reason := [], message := gs.message,
                 metadata := [], id := generateErrorID g, cause := none }
      | d :: _ =>
          match mapGet strErrorId d.metadata with
          | some v =>
              if v = [] then
                some { code := d.code, reason := d.reason, message := d.message,
                       metadata := d.metadata, id := generateErrorID g, cause := none }
              else
                some { code := d.code, reason := d.reason, message := d.message,
                       metadata := mapDelete strErrorId d.metadata, id := v, cause := none }
          | none =>
              some { code := d.code, reason := d.reason, message := d.message,
                     metadata := d.metadata, id := generateErrorID g, cause := none }
  | some (.generic msg) =>
      some { code := 500, reason := [], message := msg, metadata := [],
             id := generateErrorID g, cause := none }

/-- A store of metadata maps addressed by handles, making map aliasing
explicit for the deep-copy claim about Clone. -/
structure Store where
  next : Nat
  mem : Nat → Metadata

/-- Allocate a fresh handle holding the given map. -/
def Store.alloc (s : Store) (m : Metadata) : Store × Nat :=
  ({ next := s.next + 1, mem := fun h => if h = s.next then m else s.mem h }, s.next)

/-- Assign one key of the map behind a handle (mutating a Go map in
place). -/
def Store.setKey (s : Store) (h : Nat) (k v : List Nat) : Store :=
  { s with mem := fun x => if x = h then mapSet k v (s.mem x) else s.mem x }

/-- The Error struct with its metadata map held by reference, for the
aliasing claim. -/
structure ErrorRef where
  code : Int
  reason : List Nat
  message : List Nat
  md : Nat
  id : List Nat
  cause : Option Nat

/-- Clone over the store model: nil in, nil out; otherwise allocate a fresh
map holding a copy of the original's entries and reference it. -/
def CloneStore (s : Store) : Option ErrorRef → Store × Option ErrorRef
  | none => (s, none)
  | some e =>
      ((s.alloc (mapCopy (s.mem e.md))).1,
        some { e with md := (s.alloc (mapCopy (s.mem e.md))).2 })

/-- All gRPC code values handled by an explicit case of the ToHTTPCode
switch. -/
def grpcCodesListed : List Nat :=
  [codesOK, codesCanceled, codesUnknown, codesInvalidArgument, codesDeadlineExceeded,
   codesNotFound, codesAlreadyExists, codesPermissionDenied, codesResourceExhausted,
   codesFailedPrecondition, codesAborted, codesOutOfRange, codesUnimplemented,
   codesInternal, codesUnavailable, codesDataLoss, codesUnauthenticated]

/-- All HTTP code values handled by an explicit case of the ToGRPCCode
switch. -/
def httpCodesListed : List Int :=
  [200, 400, 401, 403, 404, 409, 429, 500, 501, 503, 504]

/-- C3 counterexample: the claim pairs web 499 with RPC canceled in both
directions, but ToGRPCCode has no case for 499 and yields codes.Unknown,
not codes.Canceled. -/
theorem toGRPCCode_499_not_canceled : ToGRPCCode 499 ≠ codesCanceled := by decide

/-- C3 (amended): the listed pairs translate in both directions for web
404, 409, 429, 501, 503 and 504; for 499 only the RPC-to-web direction
holds (canceled maps to web 499), while web 499 falls through ToGRPCCode's
default and maps to codes.Unknown. Both translation functions are total
Lean functions, hence deterministic and total over their code spaces. -/
theorem code_translation_pairs :
    ToGRPCCode 404 = codesNotFound ∧ ToHTTPCode codesNotFound = 404 ∧
    ToGRPCCode 409 = codesAborted ∧ ToHTTPCode codesAborted = 409 ∧
    ToGRPCCode 429 = codesResourceExhausted ∧ ToHTTPCode codesResourceExhausted = 429 ∧
    ToGRPCCode 501 = codesUnimplemented ∧ ToHTTPCode codesUnimplemented = 501 ∧
    ToGRPCCode 503 = codesUnavailable ∧ ToHTTPCode codesUnavailable = 503 ∧
    ToGRPCCode 504 = codesDeadlineExceeded ∧ ToHTTPCode codesDeadlineExceeded = 504 ∧
    ToHTTPCode codesCanceled = 499 ∧ ToGRPCCode 499 = codesUnknown := by
  decide

/-- C9: invalid-argument, failed-precondition and out-of-range all collapse
to web 400; unknown and data-loss collapse to web 500; every gRPC code
outside the explicit switch cases maps to web 500; every web code outside
the explicit switch cases maps to codes.Unknown. -/
theorem code_collapse_and_defaults :
    ToHTTPCode codesInvalidArgument = 400 ∧
    ToHTTPCode codesFailedPrecondition = 400 ∧
    ToHTTPCode codesOutOfRange = 400 ∧
    ToHTTPCode codesUnknown = 500 ∧
    ToHTTPCode codesDataLoss = 500 ∧
    (∀ c : Nat, c ∉ grpcCodesListed → ToHTTPCode c = 500) ∧
    (∀ h : Int, h ∉ httpCodesListed → ToGRPCCode h = codesUnknown) := by
  refine ⟨by decide, by decide, by decide, by decide, by decide, ?gc, ?hc⟩
  case gc =>
    intro c hc
    simp only [grpcCodesListed, codesOK, codesCanceled, codesUnknown, codesInvalidArgument,
      codesDeadlineExceeded, codesNotFound, codesAlreadyExists, codesPermissionDenied,
      codesResourceExhausted, codesFailedPrecondition, codesAborted, codesOutOfRange,
      codesUnimplemented, codesInternal, codesUnavailable, codesDataLoss,
      codesUnauthenticated, List.mem_cons, List.not_mem_nil, or_false, not_or] at hc
    simp only [ToHTTPCode, codesOK, codesCanceled, codesUnknown, codesInvalidArgument,
      codesDeadlineExceeded, codesNotFound, codesAlreadyExists, codesPermissionDenied,
      codesResourceExhausted, codesFailedPrecondition, codesAborted, codesOutOfRange,
      codesUnimplemented, codesInternal, codesUnavailable, codesDataLoss,
      codesUnauthenticated]
    repeat rw [if_neg (by omega)]
  case hc =>
    intro h hh
    simp only [httpCodesListed, List.mem_cons, List.not_mem_nil, or_false, not_or] at hh
    simp only [ToGRPCCode, codesOK, codesUnknown, codesInvalidArgument,
      codesDeadlineExceeded, codesNotFound, codesAborted, codesResourceExhausted,
      codesUnimplemented, codesInternal, codesUnavailable, codesPermissionDenied,
      codesUnauthenticated]
    repeat rw [if_neg (by omega)]

/-- C5: FromError of nil is nil, and FromError of a fully generic error
always yields code 500, empty reason, the error's own display text as
message, and a non-empty freshly generated id. -/
theorem fromError_nil_and_generic (msg : List Nat) (g : GenInput) :
    FromError none g = none ∧
    ∃ ret : Error, FromError (some (.generic msg)) g = some ret ∧
      ret.code = 500 ∧ ret.reason = [] ∧ ret.message = msg ∧ ret.id ≠ [] :=
  ⟨rfl, _, rfl, rfl, rfl, rfl, generateErrorID_ne_nil g⟩

/-- C7: on an error whose id is empty, GetID stores the id it generates, so
a second call returns the same id; and on any error whose id is non-empty,
GetID returns the stored id unchanged. -/
theorem getID_idempotent (e : Error) (g1 g2 : GenInput) (h : e.id = []) :
    (Error.GetID (Error.GetID e g1).2 g2).1 = (Error.GetID e g1).1 ∧
    (∀ e2 : Error, e2.id ≠ [] → ∀ g : GenInput, (Error.GetID e2 g).1 = e2.id) := by
  constructor
  · simp [Error.GetID, h, generateErrorID_ne_nil g1]
  · intro e2 h2 g
    simp [Error.GetID, h2]

/-- A concrete error value with empty id, for witnesses. -/
def sampleError : Error :=
  { code := 404, reason := [65], message := [66], metadata := [], id := [], cause := none }

/-- A concrete generation context whose internal path recovers from a
panic, for witnesses. -/
def sampleGen : GenInput :=
  { tryCtx := none, fbTimestamp := 1, fbPid := 2, fbRandom := 3 }

/-- C7 witness: the idempotence theorem applied to a concrete error with
empty id. -/
theorem getID_idempotent_witness :
    (Error.GetID (Error.GetID sampleError sampleGen).2 sampleGen).1 =
      (Error.GetID sampleError sampleGen).1 ∧
    (∀ e2 : Error, e2.id ≠ [] → ∀ g : GenInput, (Error.GetID e2 g).1 = e2.id) :=
  getID_idempotent sampleError sampleGen sampleGen rfl

/-- A second concrete generation context, differing from sampleGen only in
the random value, so that two independent generation events produce
distinct identifiers. -/
def sampleGenB : GenInput :=
  { tryCtx := none, fbTimestamp := 1, fbPid := 2, fbRandom := 4 }

/-- C6 counterexample: on a concrete error with empty id, the id reported
for with_metadata(e, m) differs from the id reported for e when the two
calls are separate generation events (here: the same clock and process but
a different random value), refuting the unrestricted equation
id_of(with_metadata(e, m)) = id_of(e). -/
theorem withMetadata_id_counterexample :
    (Error.GetID (Error.WithMetadata sampleError [([107], [118])]) sampleGenB).1 ≠
      (Error.GetID sampleError sampleGen).1 := by decide

/-- C6 (amended): WithMetadata replaces the metadata wholesale and leaves
the stored id field unchanged; consequently, for every error whose id is
non-empty, GetID returns the same id for the derived error as for the
original, even across distinct generation events. For an error with empty
id the two GetID calls are independent generation events and need not
agree. -/
theorem withMetadata_id_stable (e : Error) (m : Metadata) (g1 g2 : GenInput)
    (hne : e.id ≠ []) :
    (Error.GetID (Error.WithMetadata e m) g1).1 = (Error.GetID e g2).1 ∧
    (Error.WithMetadata e m).metadata = m ∧
    (Error.WithMetadata e m).id = e.id := by
  refine ⟨?a, rfl, rfl⟩
  simp [Error.GetID, Error.WithMetadata, cloneErr, hne]

/-- A concrete error with a non-empty stored id, for witnesses. -/
def sampleErrorWithId : Error :=
  { code := 404, reason := [65], message := [66], metadata := [], id := [120],
    cause := none }

/-- C6 witness: the amended theorem applied to a concrete error with a
non-empty id and two distinct generation contexts. -/
theorem withMetadata_id_stable_witness :
    (Error.GetID (Error.WithMetadata sampleErrorWithId [([107], [118])]) sampleGenB).1 =
      (Error.GetID sampleErrorWithId sampleGen).1 ∧
    (Error.WithMetadata sampleErrorWithId [([107], [118])]).metadata = [([107], [118])] ∧
    (Error.WithMetadata sampleErrorWithId [([107], [118])]).id = sampleErrorWithId.id :=
  withMetadata_id_stable sampleErrorWithId [([107], [118])] sampleGenB sampleGen
    (by decide)

theorem natToBytes_lt (n : Nat) : ∀ b ∈ natToBytes n, b < 256 := by
  intro b hb
  have := natToBytes_mem n b hb
  omega

theorem not_mem_natToBytes_58 (n : Nat) : (58 : Nat) ∉ natToBytes n := by
  intro hm
  have := natToBytes_mem n 58 hm
  omega

theorem fallbackPayload_lt (ts pid rnd : Nat) :
    ∀ b ∈ fallbackPayload ts pid rnd, b < 256 := by
  rw [fallbackPayload]
  simp only [List.forall_mem_append]
  exact ⟨⟨⟨⟨⟨⟨by decide, by decide⟩, natToBytes_lt ts⟩, by decide⟩, natToBytes_lt pid⟩,
    by decide⟩, natToBytes_lt rnd⟩

theorem splitOn_fallbackPayload (ts pid rnd : Nat) :
    splitOn 58 (fallbackPayload ts pid rnd) =
      [strFallback, natToBytes ts, natToBytes pid, natToBytes rnd] := by
  have h1 : fallbackPayload ts pid rnd =
      strFallback ++ 58 :: (natToBytes ts ++ 58 :: (natToBytes pid ++ 58 :: natToBytes rnd)) := by
    simp [fallbackPayload]
  rw [h1, splitOn_append 58 strFallback _ (by decide),
    splitOn_append 58 (natToBytes ts) _ (not_mem_natToBytes_58 ts),
    splitOn_append 58 (natToBytes pid) _ (not_mem_natToBytes_58 pid),
    splitOn_no_sep 58 (natToBytes rnd) (not_mem_natToBytes_58 rnd)]

/-- C2 counterexample: decoding the fallback identifier generated from
timestamp 1, process id 2 and random value 3 does not succeed, against the
claim that fallback identifiers decode without error. -/
theorem fallback_decode_fails :
    (decodeErrorID (generateFallbackErrorID 1 2 3)).isOk = false := by decide

/-- C2 (amended): every fallback identifier is the base64 encoding of a
record that carries the literal fallback marker in its first field, and its
base64 step decodes back to that record; but DecodeErrorID then rejects the
record with the malformed-format error, because it has only four
colon-separated fields where at least six are required. -/
theorem fallback_id_decode (ts pid rnd : Nat) :
    base64Decode (generateFallbackErrorID ts pid rnd) = some (fallbackPayload ts pid rnd) ∧
    (fallbackPayload ts pid rnd).take 8 = strFallback ∧
    (splitOn 58 (fallbackPayload ts pid rnd)).length = 4 ∧
    decodeErrorID (generateFallbackErrorID ts pid rnd) =
      .formatError (emptyInfo (fallbackPayload ts pid rnd)) := by
  have hdec : base64Decode (generateFallbackErrorID ts pid rnd) =
      some (fallbackPayload ts pid rnd) :=
    base64_decode_encode _ (fallbackPayload_lt ts pid rnd)
  refine ⟨hdec, rfl, ?l, ?d⟩
  case l =>
    rw [splitOn_fallbackPayload]
    rfl
  case d =>
    simp only [decodeErrorID, hdec, splitOn_fallbackPayload]
    rfl

/-- C8: DecodeErrorID succeeds exactly when the base64 step succeeds and
the decoded payload splits on colons into at least six fields; a base64
failure yields the base64 error, fewer than six fields yield the
malformed-format error, and with at least six fields every unparsable
integer field (line, timestamp, goroutine id, process id) is tolerated as
zero instead of failing the decode. -/
theorem decode_malformed_iff (cs : List Nat) :
    ((∃ i, decodeErrorID cs = .ok i) ↔
      (∃ raw, base64Decode cs = some raw ∧ 6 ≤ (splitOn 58 raw).length)) ∧
    (base64Decode cs = none → decodeErrorID cs = .base64Error) ∧
    (∀ raw, base64Decode cs = some raw → (splitOn 58 raw).length < 6 →
      decodeErrorID cs = .formatError (emptyInfo raw)) ∧
    (∀ raw, base64Decode cs = some raw → 6 ≤ (splitOn 58 raw).length →
      decodeErrorID cs = .ok (decodedInfo raw) ∧
      (parseInt64 ((splitOn 58 raw).getD 1 []) = none → (decodedInfo raw).line = 0) ∧
      (parseInt64 ((splitOn 58 raw).getD 2 []) = none → (decodedInfo raw).timestamp = 0) ∧
      (parseUint64 ((splitOn 58 raw).getD 3 []) = none → (decodedInfo raw).goroutineID = 0) ∧
      (parseInt64 ((splitOn 58 raw).getD 4 []) = none → (decodedInfo raw).processID = 0)) := by
  rcases hb : base64Decode cs with - | raw
  · refine ⟨⟨?f, ?g⟩, fun _ => by simp [decodeErrorID, hb], ?fmt, ?okk⟩
    case f =>
      rintro ⟨i, hi⟩
      simp [decodeErrorID, hb] at hi
    case g =>
      rintro ⟨raw, hraw, -⟩
      simp at hraw
    case fmt =>
      intro raw hraw
      simp at hraw
    case okk =>
      intro raw hraw
      simp at hraw
  · by_cases hlen : (splitOn 58 raw).length < 6
    · refine ⟨⟨?f, ?g⟩, by intro hnone; simp at hnone, ?fmt, ?okk⟩
      case f =>
        rintro ⟨i, hi⟩
        simp [decodeErrorID, hb, hlen] at hi
      case g =>
        rintro ⟨raw2, hraw2, h6⟩
        injection hraw2 with heq
        subst heq
        omega
      case fmt =>
        intro raw2 hraw2 hlen2
        injection hraw2 with heq
        subst heq
        simp [decodeErrorID, hb, hlen]
      case okk =>
        intro raw2 hraw2 h6
        injection hraw2 with heq
        subst heq
        omega
    · refine ⟨⟨?f, ?g⟩, by intro hnone; simp at hnone, ?fmt, ?okk⟩
      case f =>
        exact fun _ => ⟨raw, rfl, by omega⟩
      case g =>
        exact fun _ => ⟨decodedInfo raw, by simp [decodeErrorID, hb, hlen]⟩
      case fmt =>
        intro raw2 hraw2 hlen2
        injection hraw2 with heq
        subst heq
        omega
      case okk =>
        intro raw2 hraw2 h6
        injection hraw2 with heq
        subst heq
        exact ⟨by simp [decodeErrorID, hb, hlen],
          fun hp => by simp only [decodedInfo, hp, Option.getD_none],
          fun hp => by simp only [decodedInfo, hp, Option.getD_none],
          fun hp => by simp only [decodedInfo, hp, Option.getD_none],
          fun hp => by simp only [decodedInfo, hp, Option.getD_none]⟩

/-- C10: Clone of nil is nil (no panic, no fabricated error), and over the
store model a clone of a non-nil error references a fresh metadata map
holding a copy of the original entries, so that assigning a key through the
clone leaves the map seen through the original untouched. -/
theorem clone_nil_and_deep_copy (s : Store) (e : ErrorRef) (k v : List Nat)
    (hwf : e.md < s.next) :
    CloneStore s none = (s, none) ∧
    ∃ c : ErrorRef, (CloneStore s (some e)).2 = some c ∧
      c.md ≠ e.md ∧
      (((CloneStore s (some e)).1.setKey c.md k v).mem e.md = s.mem e.md) ∧
      ((CloneStore s (some e)).1.mem c.md = mapCopy (s.mem e.md)) := by
  refine ⟨rfl, { e with md := (s.alloc (mapCopy (s.mem e.md))).2 }, rfl, ?ne, ?frame, ?copy⟩
  case ne =>
    simp only [Store.alloc]
    omega
  case frame =>
    have hne : ¬(e.md = s.next) := by omega
    simp [CloneStore, Store.alloc, Store.setKey, hne]
  case copy =>
    simp [CloneStore, Store.alloc]

/-- A concrete one-handle store and an error referencing it, for
witnesses. -/
def sampleStore : Store :=
  { next := 1, mem := fun _ => [([107], [118])] }

/-- A concrete error reference into sampleStore. -/
def sampleRef : ErrorRef :=
  { code := 404, reason := [], message := [], md := 0, id := [97], cause := none }

/-- C10 witness: the deep-copy theorem applied to the concrete store. -/
theorem clone_nil_and_deep_copy_witness :
    CloneStore sampleStore none = (sampleStore, none) ∧
    ∃ c : ErrorRef, (CloneStore sampleStore (some sampleRef)).2 = some c ∧
      c.md ≠ sampleRef.md ∧
      (((CloneStore sampleStore (some sampleRef)).1.setKey c.md [107] [119]).mem
        sampleRef.md = sampleStore.mem sampleRef.md) ∧
      ((CloneStore sampleStore (some sampleRef)).1.mem c.md =
        mapCopy (sampleStore.mem sampleRef.md)) :=
  clone_nil_and_deep_copy sampleStore sampleRef [107] [119] (by decide)

theorem genFileName_ne_nil (c : GenContext) : genFileName c ≠ [] := by
  rw [genFileName]
  split
  · exact filepathBase_ne_nil _
  · simp [strUnknown]

/-- C4: an identifier produced by the non-fallback generation path decodes
successfully, recovering the chosen function name (non-empty), the chosen
file name (non-empty) and a non-negative line, provided the runtime context
satisfies what Go guarantees: the function and file names are byte strings
without colon bytes, the file name has no at-sign byte, the function name
is non-empty, and the random suffix is made of bytes. -/
theorem decode_generate_roundtrip (c : GenContext)
    (hfn : ∀ b ∈ genFuncName c, b < 256 ∧ b ≠ 58)
    (hfl : ∀ b ∈ genFileName c, b < 256 ∧ b ≠ 58 ∧ b ≠ 64)
    (hsfx : ∀ b ∈ c.randomSuffix, b < 256)
    (hne : genFuncName c ≠ []) :
    decodeErrorID (generateErrorIDInternal c) = .ok (decodedInfo (genPayload c)) ∧
    (decodedInfo (genPayload c)).function = genFuncName c ∧
    (decodedInfo (genPayload c)).function ≠ [] ∧
    (decodedInfo (genPayload c)).file = genFileName c ∧
    (decodedInfo (genPayload c)).file ≠ [] ∧
    0 ≤ (decodedInfo (genPayload c)).line := by
  have hlt : ∀ b ∈ genPayload c, b < 256 := by
    rw [genPayload]
    simp only [List.forall_mem_append]
    exact ⟨⟨⟨⟨⟨⟨⟨⟨⟨⟨⟨⟨fun b hb => (hfn b hb).1, by decide⟩,
      fun b hb => (hfl b hb).1⟩, by decide⟩, natToBytes_lt _⟩, by decide⟩,
      natToBytes_lt _⟩, by decide⟩, natToBytes_lt _⟩, by decide⟩,
      natToBytes_lt _⟩, by decide⟩, hsfx⟩
  have hdec : base64Decode (base64Encode (genPayload c)) = some (genPayload c) :=
    base64_decode_encode _ hlt
  have hnm : (58 : Nat) ∉ genFuncName c ++ 64 :: genFileName c := by
    intro hm
    rcases List.mem_append.mp hm with hmm | hmm
    · exact (hfn 58 hmm).2 rfl
    · rcases List.mem_cons.mp hmm with hmm2 | hmm2
      · exact absurd hmm2 (by decide)
      · exact (hfl 58 hmm2).2.1 rfl
  have heq : genPayload c =
      (genFuncName c ++ 64 :: genFileName c) ++ 58 :: (natToBytes (genLine c) ++
        58 :: (natToBytes c.timestamp ++ 58 :: (natToBytes c.goroutineID ++
          58 :: (natToBytes c.pid ++ 58 :: c.randomSuffix)))) := by
    simp [genPayload]
  have hsplit : splitOn 58 (genPayload c) =
      (genFuncName c ++ 64 :: genFileName c) :: natToBytes (genLine c) ::
        natToBytes c.timestamp :: natToBytes c.goroutineID :: natToBytes c.pid ::
        splitOn 58 c.randomSuffix := by
    rw [heq, splitOn_append 58 _ _ hnm,
      splitOn_append 58 _ _ (not_mem_natToBytes_58 _),
      splitOn_append 58 _ _ (not_mem_natToBytes_58 _),
      splitOn_append 58 _ _ (not_mem_natToBytes_58 _),
      splitOn_append 58 _ _ (not_mem_natToBytes_58 _)]
  have hpos : 0 < (splitOn 58 c.randomSuffix).length :=
    List.length_pos.mpr (splitOn_ne_nil 58 c.randomSuffix)
  have hlen6 : ¬((splitOn 58 (genPayload c)).length < 6) := by
    rw [hsplit]
    simp only [List.length_cons]
    omega
  have hat : splitAtLastByte 64 (genFuncName c ++ 64 :: genFileName c) =
      some (genFuncName c, genFileName c) :=
    splitAtLastByte_append 64 _ _ (fun hm => (hfl 64 hm).2.2 rfl)
  have hfun : (decodedInfo (genPayload c)).function = genFuncName c := by
    simp only [decodedInfo, hsplit, List.getD_cons_zero, hat]
  have hfile : (decodedInfo (genPayload c)).file = genFileName c := by
    simp only [decodedInfo, hsplit, List.getD_cons_zero, hat]
  have hline : (decodedInfo (genPayload c)).line =
      (parseInt64 (natToBytes (genLine c))).getD 0 := by
    simp only [decodedInfo, hsplit, List.getD_cons_succ, List.getD_cons_zero]
  refine ⟨?dec, hfun, ?fnne, hfile, ?flne, ?ln⟩
  case dec =>
    simp only [generateErrorIDInternal, decodeErrorID, hdec, hlen6, if_false]
  case fnne =>
    rw [hfun]
    exact hne
  case flne =>
    rw [hfile]
    exact genFileName_ne_nil c
  case ln =>
    rw [hline]
    exact parseInt64_natToBytes_nonneg _

/-- A concrete generation context for the round-trip witness: caller ok,
file /a/b.go, line 42, function pkg.Fn, and a four-byte suffix. -/
def sampleCtx : GenContext :=
  { callerOk := true, file := [47, 97, 47, 98, 46, 103, 111], line := 42,
    fnName := some [112, 107, 103, 46, 70, 110], timestamp := 123, goroutineID := 7,
    pid := 9, randomSuffix := [97, 98, 99, 100] }

/-- C4 witness: the round-trip theorem applied to the concrete context. -/
theorem decode_generate_roundtrip_witness :
    decodeErrorID (generateErrorIDInternal sampleCtx) =
      .ok (decodedInfo (genPayload sampleCtx)) ∧
    (decodedInfo (genPayload sampleCtx)).function = genFuncName sampleCtx ∧
    (decodedInfo (genPayload sampleCtx)).function ≠ [] ∧
    (decodedInfo (genPayload sampleCtx)).file = genFileName sampleCtx ∧
    (decodedInfo (genPayload sampleCtx)).file ≠ [] ∧
    0 ≤ (decodedInfo (genPayload sampleCtx)).line :=
  decode_generate_roundtrip sampleCtx (by decide) (by decide) (by decide) (by decide)

theorem grpcStatus_id_ne_nil (e : Error) (g : GenInput) :
    (Error.GRPCStatus e g).1.id ≠ [] := by
  by_cases h : e.id = []
  · simp [Error.GRPCStatus, h, generateErrorID_ne_nil g]
  · simp [Error.GRPCStatus, h]

/-- A concrete error with code 200 and the single metadata pair k
maps-to v, for the C1 counterexample. -/
def sampleKV200 : Error :=
  { code := 200, reason := [], message := [], metadata := [([107], [118])],
    id := [120], cause := none }

/-- C1 counterexample: for an error with code 200 (which translates to the
OK RPC code) and metadata k maps-to v, GRPCStatus yields a nil status, so
feeding its Err result back through FromError yields nil rather than an
error value carrying that metadata, refuting the unrestricted round-trip
claim. -/
theorem metadata_roundtrip_fails_at_200 :
    sampleKV200.metadata = [([107], [118])] ∧
    (Error.GRPCStatus sampleKV200 sampleGen).2 = none ∧
    FromError (statusErr (Error.GRPCStatus sampleKV200 sampleGen).2) sampleGen = none := by
  exact ⟨rfl, rfl, rfl⟩

/-- C1 (amended): for an error whose metadata is the single pair k maps-to
v and whose code does not translate to the OK RPC code (every code other
than 200), conversion produces a status, and parsing it back yields an
error whose metadata is exactly that pair again, with no reserved error id
key present, and whose id is the id GetID reports for the converted error;
for a code translating to OK the conversion yields a nil status and
FromError returns nil. -/
theorem metadata_id_roundtrip (e : Error) (g g2 g3 : GenInput)
    (hmd : e.metadata = [([107], [118])])
    (hcode : ToGRPCCode e.code ≠ codesOK) :
    ∃ st : RemoteStatus, (Error.GRPCStatus e g).2 = some st ∧
    ∃ ret : Error,
      FromError (statusErr (Error.GRPCStatus e g).2) g2 = some ret ∧
      ret.metadata = [([107], [118])] ∧
      mapGet strErrorId ret.metadata = none ∧
      ret.id = (Error.GetID (Error.GRPCStatus e g).1 g3).1 := by
  by_cases h : e.id = []
  · simp +decide [Error.GRPCStatus, FromError, Error.GetID, statusErr, h, hmd, hcode,
      mapCopy, mapSet, mapGet, mapDelete, generateErrorID_ne_nil]
  · simp +decide [Error.GRPCStatus, FromError, Error.GetID, statusErr, h, hmd, hcode,
      mapCopy, mapSet, mapGet, mapDelete]

/-- A concrete error with the single metadata pair k maps-to v, for the C1
witness. -/
def sampleKV : Error :=
  { code := 404, reason := [82], message := [77], metadata := [([107], [118])],
    id := [], cause := none }

/-- C1 witness: the amended round-trip theorem applied to the concrete
error with code 404. -/
theorem metadata_id_roundtrip_witness :
    ∃ st : RemoteStatus, (Error.GRPCStatus sampleKV sampleGen).2 = some st ∧
    ∃ ret : Error,
      FromError (statusErr (Error.GRPCStatus sampleKV sampleGen).2) sampleGen =
        some ret ∧
      ret.metadata = [([107], [118])] ∧
      mapGet strErrorId ret.metadata = none ∧
      ret.id = (Error.GetID (Error.GRPCStatus sampleKV sampleGen).1 sampleGen).1 :=
  metadata_id_roundtrip sampleKV sampleGen sampleGen sampleGen rfl (by decide)

end ZeroErr
